import Mathlib

/-!
Verification development for the `decgen` decorator generator
(package `decgen`, files `decgen.go`, `templates.go`, `cmd`).

The Go source is shallowly embedded: each template helper function
(`paramName`, `FuncSignature`, `FuncCall`, `FuncGRPCAdapterServer`,
`FuncCallGRPCAdapter`, `FuncReturnErr`, `FuncResults`, `FuncReturnOK`)
becomes a pure Lean function over an explicit model of the data the
`gojuno/generator` collaborator supplies (parameter / result sets with
rendered type strings, a variadic flag, and the dynamic classification
of the underlying `go/types` type).  The AST walk of `visitor.Visit`
and `visitor.processInterface` becomes a fold over an explicit list of
type declarations, with validator invocations logged in an explicit
trace so that short-circuiting behaviour is observable.  Go `panic`
and Go `error` returns both become `Except String`.
-/

/-! ## Go string primitives

`leadMatch pre s` is true when the character list `pre` is an initial
segment of `s`; it is the common core of Go's `strings.HasSuffix`,
`strings.TrimSuffix` and `strings.TrimPrefix` as used by the source
(byte-level suffix/prefix checks on valid UTF-8 agree with
codepoint-level ones, since continuation bytes never start a rune). -/
def leadMatch : List Char → List Char → Bool
  | [], _ => true
  | _ :: _, [] => false
  | a :: as, b :: bs => a == b && leadMatch as bs

/-- Go `strings.HasSuffix s suf`. -/
def goHasSuffix (s suf : String) : Bool :=
  leadMatch suf.data.reverse s.data.reverse

/-- Go `strings.TrimSuffix s suf`: drops `suf` from the end of `s` when
present, otherwise returns `s` unchanged. -/
def goTrimSuffix (s suf : String) : String :=
  if goHasSuffix s suf then ⟨s.data.take (s.data.length - suf.data.length)⟩ else s

/-- Go `strings.TrimPrefix s pre`: drops `pre` from the front of `s` when
present, otherwise returns `s` unchanged. -/
def goTrimLead (s pre : String) : String :=
  if leadMatch pre.data s.data then ⟨s.data.drop pre.data.length⟩ else s

/-- Go `strings.Join xs sep`. -/
def goJoin : List String → String → String
  | [], _ => ""
  | [x], _ => x
  | x :: xs, sep => x ++ sep ++ goJoin xs sep

/-! ## Data model

The `gojuno/generator` collaborator hands the template helpers a
`ParamSet`: for each parameter or result, a rendered type string
(`Param.Type`), and for results additionally the dynamic `go/types`
value (`Param.OriginalType`).  `OrigType` models exactly the dynamic
classification the source inspects: `*types.Named` (with its printed
name and the printed underlying type), `*types.Basic` (with its name),
and every other `types.Type` implementation (pointer, slice, map,
interface, channel, unnamed struct, ...), which falls through both
cases of the type switch in `FuncReturnErr`. -/
inductive OrigType where
  /-- a `*types.Named`; carries `asserted.String()` and `asserted.Underlying().String()` -/
  | named (nm underlying : String)
  /-- a `*types.Basic`; carries `asserted.Name()` -/
  | basic (nm : String)
  /-- any other dynamic `types.Type` (pointer, slice, map, interface, ...);
      the tag records which kind, though the source never inspects it -/
  | other (kind : String)
  deriving DecidableEq, Repr

/-- One entry of a `generator.ParamSet` (used both for parameters and
for results). -/
structure Param where
  name : String := ""
  typ : String
  variadic : Bool := false
  orig : OrigType := .other ""
  deriving DecidableEq, Repr

/-- Modelled from the `gojuno/generator` collaborator contract:
`Param.Pass()` returns the parameter's name with the variadic
expansion marker `...` appended when the parameter is variadic. -/
def Param.pass (p : Param) : String :=
  if p.variadic then p.name ++ "..." else p.name

/-- A method signature as the helpers see it: the ordered parameter set
and the ordered result set (`g.FuncParams` / `g.FuncResults`). -/
structure Signature where
  params : List Param
  results : List Param
  deriving DecidableEq, Repr

/-! ## paramName (decgen.go lines 161-175) -/

/-- Body of `paramName(index, paramSet)`: the source reads
`paramSet[index].Type`, `index` and `len(paramSet)` only, so the
embedding takes the selected parameter, the index and the set length. -/
def paramNameAux (p : Param) (index n : Nat) : String :=
  if p.typ = "context.Context" ∧ index = 0 then "ctx"
  else if n = 2 ∧ index = 1 then "req"
  else "param" ++ Nat.repr index

/-- The loop of `FuncCall`: `paramName(i, params)` for each `i` in order. -/
def callNamesAux (orig : List Param) : Nat → List Param → List String
  | _, [] => []
  | i, p :: rest => paramNameAux p i orig.length :: callNamesAux orig (i + 1) rest

/-- Resolved names of all parameters of a parameter set, in order. -/
def callNames (ps : List Param) : List String :=
  callNamesAux ps 0 ps

/-- `FuncCall` (decgen.go lines 213-227): joins the resolved parameter
names with `", "`. -/
def funcCall (ps : List Param) : String :=
  goJoin (callNames ps) ", "

/-! ## FuncSignature (decgen.go lines 178-209) -/

/-- One parameter declaration of the rendered signature:
`paramName` followed by the type, where a variadic parameter (detected
by `param.Pass()` ending in `...`) has its `[]` slice form replaced by
the `...` expansion-marker form. -/
def sigDecl (p : Param) (i n : Nat) : String :=
  paramNameAux p i n ++ " " ++
    (if goHasSuffix p.pass "..." then "..." ++ goTrimLead p.typ "[]" else p.typ)

/-- The parameter loop of `FuncSignature`. -/
def sigDeclsAux (orig : List Param) : Nat → List Param → List String
  | _, [] => []
  | i, p :: rest => sigDecl p i orig.length :: sigDeclsAux orig (i + 1) rest

/-- `FuncSignature`: renders `(name type, ...) (resultType, ...)`. -/
def funcSignature (s : Signature) : String :=
  "(" ++ goJoin (sigDeclsAux s.params 0 s.params) ", " ++ ") (" ++
    goJoin (s.results.map Param.typ) ", " ++ ")"

/-! ## FuncGRPCAdapterServer (decgen.go lines 230-246) -/

/-- `FuncGRPCAdapterServer`: requires the interface name to end in
`Client` and substitutes `Server` for that suffix; otherwise errors.
(The source's non-string-input branch is a dynamic-typing guard; the
templates always pass the string `$interfaceName`.) -/
def funcGRPCAdapterServer (s : String) : Except String String :=
  if goHasSuffix s "Client" then
    .ok (goTrimSuffix s "Client" ++ "Server")
  else
    .error "the specified interface wasn't a client"

/-! ## FuncCallGRPCAdapter (decgen.go lines 249-266) -/

/-- The loop of `FuncCallGRPCAdapter`: like `FuncCall` but the loop
breaks when the index reaches `len(params)-1`, dropping the last
parameter. -/
def adapterNamesAux (orig : List Param) : Nat → List Param → List String
  | _, [] => []
  | i, p :: rest =>
    if i = orig.length - 1 then []
    else paramNameAux p i orig.length :: adapterNamesAux orig (i + 1) rest

/-- Resolved names forwarded by the gRPC adapter call. -/
def adapterNames (ps : List Param) : List String :=
  adapterNamesAux ps 0 ps

/-- `FuncCallGRPCAdapter`: joins the forwarded names with `", "`. -/
def funcCallGRPCAdapter (ps : List Param) : String :=
  goJoin (adapterNames ps) ", "

/-! ## FuncReturnErr (decgen.go lines 271-323) -/

/-- The type switch in the body of `FuncReturnErr`'s loop: derives the
"empty" literal for one (non-terminal) result.  A `panic` in the source
becomes `Except.error` with the panic message. -/
def emptyValueOf (r : Param) : Except String String :=
  match r.orig with
  | .named nm u =>
    if u = "int64" then .ok "0"
    else if u = "string" then .ok "\"\""
    else if u = "bool" then .ok "false"
    else .error ("no nil value for named type known: " ++ nm ++ ", " ++ u)
  | .basic nm =>
    if nm = "int64" then .ok "0"
    else if nm = "string" then .ok "\"\""
    else if nm = "bool" then .ok "false"
    else .error ("no nil value for basic type known: " ++ nm)
  | .other _ => .ok "nil"

/-- The loop of `FuncReturnErr`: walks the results, breaking at a
terminal `error` result, collecting empty-value literals; a panic
aborts the walk. -/
def errValuesAux (n : Nat) : Nat → List Param → Except String (List String)
  | _, [] => .ok []
  | i, r :: rest =>
    if r.typ = "error" ∧ i = n - 1 then .ok []
    else
      match emptyValueOf r with
      | .error e => .error e
      | .ok v =>
        match errValuesAux n (i + 1) rest with
        | .error e => .error e
        | .ok vs => .ok (v :: vs)

/-- `FuncReturnErr`: the comma-joined empty values with a trailing
comma, or `""` when no non-terminal results exist. -/
def funcReturnErr (rs : List Param) : Except String String :=
  match errValuesAux rs.length 0 rs with
  | .error e => .error e
  | .ok [] => .ok ""
  | .ok vs => .ok (goJoin vs ", " ++ ",")

/-! ## FuncResults (decgen.go lines 327-350) -/

/-- The loop of `FuncResults`: `err` for a terminal `error` result,
`arg<i>` for every other result. -/
def resultArgsAux (n : Nat) : Nat → List Param → List String
  | _, [] => []
  | i, r :: rest =>
    (if r.typ = "error" ∧ i = n - 1 then "err" else "arg" ++ Nat.repr i) ::
      resultArgsAux n (i + 1) rest

/-- Result binding names produced by `FuncResults`. -/
def resultArgs (rs : List Param) : List String :=
  resultArgsAux rs.length 0 rs

/-- Assignment operator chosen by `FuncResults`: `=` exactly when the
argument list is a single entry whose first result has type `error`. -/
def assignOp (rs : List Param) : String :=
  if (resultArgs rs).length == 1 && (match rs with | r :: _ => r.typ == "error" | [] => false)
  then "=" else ":="

/-- `FuncResults`: `fmt.Sprintf("%s %s ", join(args, ", "), op)`. -/
def funcResults (rs : List Param) : String :=
  goJoin (resultArgs rs) ", " ++ " " ++ assignOp rs ++ " "

/-! ## FuncReturnOK (decgen.go lines 362-380) -/

/-- The loop of `FuncReturnOK`: `nil` for a terminal `error` result,
`arg<i>` otherwise. -/
def okValuesAux (n : Nat) : Nat → List Param → List String
  | _, [] => []
  | i, r :: rest =>
    (if r.typ = "error" ∧ i = n - 1 then "nil" else "arg" ++ Nat.repr i) ::
      okValuesAux n (i + 1) rest

/-- `FuncReturnOK`: joins the success-path result bindings with `", "`. -/
def funcReturnOK (rs : List Param) : String :=
  goJoin (okValuesAux rs.length 0 rs) ", "

/-! ## Interface extraction and validation
(decgen.go lines 111-158, Generate lines 35-98, cmd validator)

`visitor.Visit` fires on every `*ast.TypeSpec`; its type switch only
handles `*types.Interface` — every other type declaration is skipped
silently.  The type-resolution collaborator (`gen.ExpressionType`) is
modelled as succeeding, handing us each declaration's resolved kind
directly. -/

/-- A validator, as registered on the `Generator`
(Go `func(s *types.Signature) error`): `some msg` models a non-nil
error. -/
def Validator : Type := Signature → Option String

/-- The shipped validator (cmd `Execute`, src/unnamed/part_000 lines
39-45): the parameter list must be non-empty and its first entry's
type string must be `context.Context`. -/
def shippedValidator : Validator := fun s =>
  match s.params with
  | [] => some "first param must be context.Context"
  | p :: _ =>
    if p.typ ≠ "context.Context" then some "first param must be context.Context"
    else none

/-- The inner validator loop of `processInterface`: the error of the
first failing validator, in registration order. -/
def firstFailure (vs : List Validator) (s : Signature) : Option String :=
  match vs with
  | [] => none
  | v :: rest =>
    match v s with
    | some e => some e
    | none => firstFailure rest s

/-- Message of `errors.Wrapf(err, "failed to validate method '%v'", name)`. -/
def validationMsg (methodName msg : String) : String :=
  "failed to validate method '" ++ methodName ++ "': " ++ msg

/-- The method loop of `processInterface`, with the validator
invocations made explicit.  Returns
(trace of method names the validators were invoked on,
 methods stored into `v.methods`,
 the error returned by `processInterface`).
The source `return`s out of the whole loop at the first method with a
failing validator: that method is the last one traced, it and all
later methods are not stored, and later methods are never validated. -/
def processInterfaceAux (vs : List Validator) :
    List (String × Signature) → List String × List (String × Signature) × Option String
  | [] => ([], [], none)
  | (n, s) :: rest =>
    match firstFailure vs s with
    | some e => ([n], [], some (validationMsg n e))
    | none =>
      let (tr, ms, err) := processInterfaceAux vs rest
      (n :: tr, (n, s) :: ms, err)

/-- The resolved kind of a top-level type declaration. -/
inductive TypeDef where
  /-- an interface type, with its ordered method set -/
  | iface (methods : List (String × Signature))
  /-- any non-interface type (struct, alias, basic, ...) — skipped by
      the type switch in `visitor.Visit` -/
  | nonInterface
  deriving Repr

/-- An `*ast.TypeSpec` with its resolved type. -/
structure TypeSpec where
  name : String
  ty : TypeDef

/-- State of the `visitor` during the walk, with the validator
invocation trace made explicit. -/
structure VisitorState where
  methods : List (String × Signature)
  err : Option String
  trace : List String
  deriving Repr

/-- `visitor.Visit` on one type declaration: non-interface types and
interfaces whose name differs from the requested one are skipped; a
matching interface is processed only while `v.err == nil`. -/
def visitSpec (sname : String) (vs : List Validator) (st : VisitorState)
    (ts : TypeSpec) : VisitorState :=
  match ts.ty with
  | .nonInterface => st
  | .iface ms =>
    if ts.name ≠ sname then st
    else if st.err = none then
      let (tr, collected, e) := processInterfaceAux vs ms
      { methods := st.methods ++ collected, err := e, trace := st.trace ++ tr }
    else st

/-- The walk in `Generate`: `ast.Walk(v, file)` over every file of the
source package, modelled as a fold over the flattened list of type
declarations. -/
def runVisitor (sname : String) (vs : List Validator) (specs : List TypeSpec) :
    VisitorState :=
  specs.foldl (visitSpec sname vs) ⟨[], none, []⟩

/-- The tail of `Generate` (decgen.go lines 85-97), given that package
loading succeeded: when `v.err` is set, Generate aborts wrapping the
error; otherwise it proceeds to `ProcessTemplate` and
`WriteToFilename` (the render and the file write, modelled as the
external collaborators succeeding). `.ok ()` therefore means "an
output file is rendered and written". -/
def generateResult (sname : String) (vs : List Validator)
    (specs : List TypeSpec) : Except String Unit :=
  match (runVisitor sname vs specs).err with
  | some e => .error ("failed to parse interface: " ++ e)
  | none => .ok ()

/-- Whether a resolved type declaration is an interface (the guard of
the type switch in `visitor.Visit`). -/
def TypeDef.isIface : TypeDef → Bool
  | .iface _ => true
  | .nonInterface => false

/-! ## Helper lemmas -/

lemma callNamesAux_length (orig : List Param) :
    ∀ (i : Nat) (l : List Param), (callNamesAux orig i l).length = l.length := by
  intro i l
  induction l generalizing i with
  | nil => rfl
  | cons p rest ih => simp [callNamesAux, ih]

lemma resultArgsAux_length (n : Nat) :
    ∀ (i : Nat) (l : List Param), (resultArgsAux n i l).length = l.length := by
  intro i l
  induction l generalizing i with
  | nil => rfl
  | cons p rest ih => simp [resultArgsAux, ih]

lemma resultArgs_length (rs : List Param) : (resultArgs rs).length = rs.length :=
  resultArgsAux_length rs.length 0 rs

lemma resultArgsAux_append (n : Nat) :
    ∀ (i : Nat) (pre : List Param) (e : Param), e.typ = "error" →
      i + pre.length + 1 = n →
      resultArgsAux n i (pre ++ [e]) =
        ((List.range pre.length).map fun j => "arg" ++ Nat.repr (i + j)) ++ ["err"] := by
  intro i pre e he hn
  induction pre generalizing i with
  | nil =>
    have h1 : i + 1 = n := by simpa using hn
    have hi : i = n - 1 := by omega
    simp [resultArgsAux, he, hi]
  | cons p rest ih =>
    have h1 : i + rest.length + 2 = n := by
      have := hn
      simp only [List.length_cons] at this
      omega
    have hi : ¬ (i = n - 1) := by omega
    have hrec := ih (i + 1) (by omega)
    simp only [List.cons_append, List.length_cons, resultArgsAux, hi, and_false, if_false,
      List.append_eq]
    rw [hrec, List.range_succ_eq_map, List.map_cons, List.map_map]
    simp only [Nat.add_zero, List.cons_append, List.cons.injEq, Function.comp]
    refine ⟨trivial, ?_⟩
    congr 1
    apply List.map_congr_left
    intro a _
    congr 2
    omega

lemma processInterfaceAux_all_ok (vs : List Validator) :
    ∀ (ms : List (String × Signature)), (∀ m ∈ ms, firstFailure vs m.2 = none) →
      processInterfaceAux vs ms = (ms.map Prod.fst, ms, none) := by
  intro ms h
  induction ms with
  | nil => rfl
  | cons m rest ih =>
    have hm : firstFailure vs m.2 = none := h m (by simp)
    have hrest := ih (fun x hx => h x (by simp [hx]))
    simp [processInterfaceAux, hm, hrest]

lemma processInterfaceAux_first_fail (vs : List Validator) :
    ∀ (pre : List (String × Signature)) (n : String) (s : Signature)
      (post : List (String × Signature)) (e : String),
      (∀ m ∈ pre, firstFailure vs m.2 = none) → firstFailure vs s = some e →
      processInterfaceAux vs (pre ++ (n, s) :: post) =
        (pre.map Prod.fst ++ [n], pre, some (validationMsg n e)) := by
  intro pre n s post e hpre hfail
  induction pre with
  | nil => simp [processInterfaceAux, hfail]
  | cons m rest ih =>
    have hm : firstFailure vs m.2 = none := hpre m (by simp)
    have hrest := ih (fun x hx => hpre x (by simp [hx]))
    simp [processInterfaceAux, hm, hrest]

lemma foldl_visitSpec_skip (sname : String) (vs : List Validator) :
    ∀ (specs : List TypeSpec) (st : VisitorState),
      (∀ ts ∈ specs, ts.ty.isIface = true → ts.name ≠ sname) →
      specs.foldl (visitSpec sname vs) st = st := by
  intro specs st h
  induction specs generalizing st with
  | nil => rfl
  | cons ts rest ih =>
    have hts : visitSpec sname vs st ts = st := by
      match hty : ts.ty with
      | .nonInterface => simp [visitSpec, hty]
      | .iface ms =>
        have hname : ts.name ≠ sname := h ts (by simp) (by simp [hty, TypeDef.isIface])
        simp [visitSpec, hty, hname]
    rw [List.foldl_cons, hts]
    exact ih st (fun x hx => h x (by simp [hx]))

lemma callNamesAux_ne_nil (orig : List Param) (i : Nat) (p : Param) (l : List Param) :
    callNamesAux orig i (p :: l) ≠ [] := by
  simp [callNamesAux]

lemma adapterNamesAux_eq_dropLast (orig : List Param) :
    ∀ (i : Nat) (l : List Param), i + l.length = orig.length →
      adapterNamesAux orig i l = (callNamesAux orig i l).dropLast := by
  intro i l
  induction l generalizing i with
  | nil => intro _; rfl
  | cons p rest ih =>
    intro h
    have h1 : i + rest.length + 1 = orig.length := by
      simp only [List.length_cons] at h
      omega
    by_cases hc : i = orig.length - 1
    · have hrest : rest = [] := List.length_eq_zero.mp (by omega)
      subst hrest
      simp [adapterNamesAux, callNamesAux, hc]
    · have hlen : (callNamesAux orig (i + 1) rest).length = rest.length :=
        callNamesAux_length orig (i + 1) rest
      have hne : callNamesAux orig (i + 1) rest ≠ [] := by
        intro hnil
        rw [hnil] at hlen
        simp only [List.length_nil] at hlen
        omega
      rw [show adapterNamesAux orig i (p :: rest) =
            paramNameAux p i orig.length :: adapterNamesAux orig (i + 1) rest from by
          simp [adapterNamesAux, hc]]
      rw [show callNamesAux orig i (p :: rest) =
            paramNameAux p i orig.length :: callNamesAux orig (i + 1) rest from rfl]
      rw [List.dropLast_cons_of_ne_nil hne]
      rw [ih (i + 1) (by omega)]

/-! ## Claim theorems -/

/-- C4: for every method whose result list is a single non-error result
of pointer-like (non-named, non-basic) classification followed by the
terminal `error` — the `(*Response, error)` shape — `FuncReturnErr`
renders the error-path tuple `"nil,"` (so the error return is
`(nil, <wrapped err>)`) and `FuncReturnOK` renders the success-path
tuple `"arg0, nil"` (terminal error slot replaced by `nil`, positional
binding kept for the rest). -/
theorem C4_error_and_success_path_shape (nm1 nm2 t k : String) (v1 v2 : Bool)
    (eo : OrigType) :
    funcReturnErr [⟨nm1, t, v1, .other k⟩, ⟨nm2, "error", v2, eo⟩] = .ok "nil," ∧
    funcReturnOK [⟨nm1, t, v1, .other k⟩, ⟨nm2, "error", v2, eo⟩] = "arg0, nil" := by
  constructor
  · simp [funcReturnErr, errValuesAux, emptyValueOf, goJoin]
  · simp [funcReturnOK, okValuesAux, goJoin]
    decide

/-- C5: the naming resolver is position-based: `"ctx"` at index 0 when
the type is the context carrier, `"req"` at index 1 of a two-entry
list, `"param<index>"` otherwise; hence `[contextCarrier, *Request]`
names to `["ctx","req"]`, `[contextCarrier]` to `["ctx"]`, and
`[contextCarrier, A, B]` to `["ctx","param1","param2"]`. -/
theorem C5_naming_resolver (nm : String) (v : Bool) (o : OrigType)
    (a b r : Param) (p : Param) (i n : Nat) :
    paramNameAux p i n = (if p.typ = "context.Context" ∧ i = 0 then "ctx"
      else if n = 2 ∧ i = 1 then "req" else "param" ++ Nat.repr i)
    ∧ callNames [⟨nm, "context.Context", v, o⟩, r] = ["ctx", "req"]
    ∧ callNames [⟨nm, "context.Context", v, o⟩] = ["ctx"]
    ∧ callNames [⟨nm, "context.Context", v, o⟩, a, b] = ["ctx", "param1", "param2"] := by
  refine ⟨rfl, ?_, ?_, ?_⟩
  · simp [callNames, callNamesAux, paramNameAux]
  · simp [callNames, callNamesAux, paramNameAux]
  · simp [callNames, callNamesAux, paramNameAux]
    decide

/-- C7: for the RPCAdapter pattern, an interface name ending in the
literal suffix `Client` derives the delegate name with that suffix
replaced by `Server`; a name not ending in `Client` is a fatal
configuration error. -/
theorem C7_adapter_suffix_rule (s t : String) (h : goHasSuffix s "Client" = true)
    (h2 : goHasSuffix t "Client" = false) :
    funcGRPCAdapterServer s = .ok (goTrimSuffix s "Client" ++ "Server") ∧
    funcGRPCAdapterServer t = .error "the specified interface wasn't a client" := by
  constructor
  · simp [funcGRPCAdapterServer, h]
  · simp [funcGRPCAdapterServer, h2]

/-- Witness for C7 at the spec's concrete inputs: `FooClient` derives
`FooServer`; `Foo` fails. -/
theorem C7_adapter_suffix_rule_witness :
    funcGRPCAdapterServer "FooClient" = .ok "FooServer" ∧
    funcGRPCAdapterServer "Foo" = .error "the specified interface wasn't a client" := by
  have h := C7_adapter_suffix_rule "FooClient" "Foo" (by decide) (by decide)
  exact ⟨h.1.trans rfl, h.2⟩

/-- C8: for every method rendered under the RPCAdapter pattern, the
forwarded argument list is exactly the resolved names of all
parameters except the last one, in their original order. -/
theorem C8_adapter_forwards_all_but_last (ps : List Param) :
    adapterNames ps = (callNames ps).dropLast ∧
    funcCallGRPCAdapter ps = goJoin ((callNames ps).dropLast) ", " := by
  have h : adapterNames ps = (callNames ps).dropLast :=
    adapterNamesAux_eq_dropLast ps 0 ps (by simp)
  refine ⟨h, ?_⟩
  show goJoin (adapterNames ps) ", " = _
  rw [h]

/-- C10: for a method whose result list is solely the terminal `error`
result, `FuncReturnErr` returns the empty string — no literals and no
trailing comma. -/
theorem C10_error_only_result_empty_tuple (p : Param) (h : p.typ = "error") :
    funcReturnErr [p] = .ok "" := by
  simp [funcReturnErr, errValuesAux, h]

/-- Witness for C10 at the concrete single-`error` result list. -/
theorem C10_error_only_result_empty_tuple_witness :
    funcReturnErr [{ typ := "error" }] = .ok "" :=
  C10_error_only_result_empty_tuple { typ := "error" } rfl

/-- C9 (amended reading is the claim itself — the claim holds): the
assignment style is determined solely by whether the result list is
exactly the single terminal `error`: that list renders the plain
reassignment `"err = "`, while any other result list uses the fresh
declaration `":="`, with `arg<i>` bindings for every non-terminal
result and `err` for the terminal error. -/
theorem C9_assignment_style (r e q : Param) (pre rs2 : List Param)
    (h1 : r.typ = "error") (he : e.typ = "error") (hq : q.typ ≠ "error")
    (hpre : pre ≠ []) (h2 : rs2.length ≠ 1) :
    funcResults [r] = "err = "
    ∧ assignOp rs2 = ":="
    ∧ assignOp [q] = ":="
    ∧ resultArgs (pre ++ [e]) =
        ((List.range pre.length).map fun i => "arg" ++ Nat.repr i) ++ ["err"]
    ∧ funcResults (pre ++ [e]) = goJoin (resultArgs (pre ++ [e])) ", " ++ " := " := by
  have hb2 : (rs2.length == 1) = false := by simp [h2]
  have hargs : resultArgs (pre ++ [e]) =
      ((List.range pre.length).map fun i => "arg" ++ Nat.repr i) ++ ["err"] := by
    have := resultArgsAux_append (pre ++ [e]).length 0 pre e he (by simp)
    simpa [resultArgs] using this
  have hlen2 : ((pre ++ [e]).length == 1) = false := by
    have h0 : pre.length ≠ 0 := fun h0 => hpre (List.length_eq_zero.mp h0)
    refine beq_eq_false_iff_ne.mpr ?_
    simp only [List.length_append, List.length_singleton]
    omega
  refine ⟨?_, ?_, ?_, hargs, ?_⟩
  · simp [funcResults, resultArgs, resultArgsAux, assignOp, goJoin, h1]
  · simp [assignOp, resultArgs_length, hb2]
  · simp [assignOp, resultArgs, resultArgsAux, hq]
  · have hop : assignOp (pre ++ [e]) = ":=" := by
      simp [assignOp, resultArgs_length, hlen2, hpre]
    simp only [funcResults, hop, String.append_assoc]
    congr 1

/-- Witness for C9 at concrete result lists: `(error)` renders
`"err = "`, `(*Response, error)` renders `"arg0, err := "`, and
single-non-error / non-single lists choose `":="`. -/
theorem C9_assignment_style_witness :
    funcResults [({ typ := "error" } : Param)] = "err = "
    ∧ assignOp [] = ":="
    ∧ assignOp [({ typ := "int64", orig := .basic "int64" } : Param)] = ":="
    ∧ resultArgs [{ typ := "*Response", orig := .other "pointer" }, { typ := "error" }] =
        ["arg0", "err"]
    ∧ funcResults [{ typ := "*Response", orig := .other "pointer" }, { typ := "error" }] =
        "arg0, err := " := by
  have h := C9_assignment_style { typ := "error" } { typ := "error" }
    { typ := "int64", orig := .basic "int64" }
    [{ typ := "*Response", orig := .other "pointer" }] []
    rfl rfl (by decide) (by decide) (by decide)
  exact ⟨h.1, h.2.1, h.2.2.1, h.2.2.2.1.trans (by decide), h.2.2.2.2.trans (by decide)⟩

/-- C6 (evaluation at the failing input): for the method
`(ctx context.Context, opts ...string) error`, the rendered signature
does strip the slice form in favour of the expansion-marker form
(`...string` instead of `[]string`) and the parameter keeps its
resolver-assigned name, but the delegated call site forwards the bare
name `req` with NO `...` expansion marker: `FuncCall` renders
`"ctx, req"`, not `"ctx, req..."`, so the generated delegation passes
a `[]string` where a `...string` is expected. -/
theorem C6_variadic_call_site_eval :
    funcSignature ⟨[{ name := "ctx", typ := "context.Context" },
                    { name := "opts", typ := "[]string", variadic := true, orig := .other "slice" }],
                   [{ typ := "error" }]⟩ = "(ctx context.Context, req ...string) (error)"
    ∧ funcCall [{ name := "ctx", typ := "context.Context" },
                { name := "opts", typ := "[]string", variadic := true, orig := .other "slice" }] =
        "ctx, req" := by
  decide

/-- Counterexample to C3: a result of pointer classification used in
the error path does NOT produce a fatal error — `FuncReturnErr`
happily renders `"nil,"` for it; and the scalar integer family is not
mapped to `"0"` in general — a basic `int32` result is a fatal panic,
only `int64` is supported. -/
theorem C3_zero_value_counterexample :
    funcReturnErr [{ typ := "*Response", orig := .other "pointer" },
                   { typ := "error", orig := .named "error" "interface{Error() string}" }] =
      .ok "nil,"
    ∧ emptyValueOf { typ := "int32", orig := .basic "int32" } =
        .error "no nil value for basic type known: int32" :=
  ⟨rfl, rfl⟩

/-- C3 as amended: the zero-value deriver maps exactly the literal
names `int64` → `"0"`, `string` → the empty-string literal, `bool` →
`"false"`, both for basic types and for named types via their
underlying representation; a named or basic type with ANY other
name/underlying is a fatal error (panic); but a result whose dynamic
classification is neither named nor basic (pointer, slice, map,
interface, channel, unnamed struct) falls through the type switch and
is rendered as the guessed literal `"nil"`, not a fatal error; the
per-result derivation propagates through `FuncReturnErr`'s error-path
synthesis. -/
theorem C3_zero_value_amended (t nm u k : String) (r et : Param)
    (hu : u ≠ "int64" ∧ u ≠ "string" ∧ u ≠ "bool") (het : et.typ = "error") :
    emptyValueOf { typ := t, orig := .named nm "int64" } = .ok "0"
    ∧ emptyValueOf { typ := t, orig := .named nm "string" } = .ok "\"\""
    ∧ emptyValueOf { typ := t, orig := .named nm "bool" } = .ok "false"
    ∧ emptyValueOf { typ := t, orig := .basic "int64" } = .ok "0"
    ∧ emptyValueOf { typ := t, orig := .basic "string" } = .ok "\"\""
    ∧ emptyValueOf { typ := t, orig := .basic "bool" } = .ok "false"
    ∧ emptyValueOf { typ := t, orig := .named nm u } =
        .error ("no nil value for named type known: " ++ nm ++ ", " ++ u)
    ∧ emptyValueOf { typ := t, orig := .basic u } =
        .error ("no nil value for basic type known: " ++ u)
    ∧ emptyValueOf { typ := t, orig := .other k } = .ok "nil"
    ∧ funcReturnErr [r, et] = Except.map (fun v => v ++ ",") (emptyValueOf r) := by
  obtain ⟨hu1, hu2, hu3⟩ := hu
  have hlast : funcReturnErr [r, et] = Except.map (fun v => v ++ ",") (emptyValueOf r) := by
    cases hev : emptyValueOf r with
    | error msg => simp [funcReturnErr, errValuesAux, hev, het, Except.map]
    | ok v => simp [funcReturnErr, errValuesAux, hev, het, goJoin, Except.map]
  exact ⟨rfl, rfl, rfl, rfl, rfl, rfl, by simp [emptyValueOf, hu1, hu2, hu3],
    by simp [emptyValueOf, hu1, hu2, hu3], rfl, hlast⟩

/-- Witness for C3 as amended, at concrete types (`float64` as the
unsupported scalar, a pointer result in a `(*Response, error)` error
path). -/
theorem C3_zero_value_amended_witness :
    emptyValueOf { typ := "T", orig := .named "MyInt" "int64" } = .ok "0"
    ∧ emptyValueOf { typ := "T", orig := .named "MyInt" "string" } = .ok "\"\""
    ∧ emptyValueOf { typ := "T", orig := .named "MyInt" "bool" } = .ok "false"
    ∧ emptyValueOf { typ := "T", orig := .basic "int64" } = .ok "0"
    ∧ emptyValueOf { typ := "T", orig := .basic "string" } = .ok "\"\""
    ∧ emptyValueOf { typ := "T", orig := .basic "bool" } = .ok "false"
    ∧ emptyValueOf { typ := "T", orig := .named "MyInt" "float64" } =
        .error "no nil value for named type known: MyInt, float64"
    ∧ emptyValueOf { typ := "T", orig := .basic "float64" } =
        .error "no nil value for basic type known: float64"
    ∧ emptyValueOf { typ := "T", orig := .other "chan int" } = .ok "nil"
    ∧ funcReturnErr [{ typ := "*Response", orig := .other "ptr" }, { typ := "error" }] =
        Except.map (fun v => v ++ ",")
          (emptyValueOf { typ := "*Response", orig := .other "ptr" }) :=
  C3_zero_value_amended "T" "MyInt" "float64" "chan int"
    { typ := "*Response", orig := .other "ptr" } { typ := "error" }
    (by refine ⟨?_, ?_, ?_⟩ <;> decide) rfl

/-- Counterexample to C1: when the named interface is absent from the
source (no declaration with that name at all, or the name resolves to
a non-interface type), the visitor records NO error — there is no
`NotFoundError` and no `NotAnInterfaceError` — and `Generate`
proceeds to render and write the output file. -/
theorem C1_missing_interface_counterexample :
    (runVisitor "Service" [shippedValidator] [⟨"Other", .iface [("Do", ⟨[], []⟩)]⟩]).err = none
    ∧ generateResult "Service" [shippedValidator] [⟨"Other", .iface [("Do", ⟨[], []⟩)]⟩] = .ok ()
    ∧ (runVisitor "Service" [shippedValidator] [⟨"Service", .nonInterface⟩]).err = none
    ∧ generateResult "Service" [shippedValidator] [⟨"Service", .nonInterface⟩] = .ok () :=
  ⟨rfl, rfl, rfl, rfl⟩

/-- C1 as amended: the extractor processes exactly the interface type
declarations whose name matches the requested name (exact,
case-sensitive match); when no such interface exists the run produces
no error, the extracted method model is empty, and `Generate` still
proceeds to render and write the output file; when a matching
interface exists and every method passes the validators, its full
ordered method set is extracted. -/
theorem C1_extractor_amended (sname : String) (vs : List Validator) (specs : List TypeSpec)
    (ms : List (String × Signature))
    (habsent : ∀ ts ∈ specs, ts.ty.isIface = true → ts.name ≠ sname)
    (hok : ∀ m ∈ ms, firstFailure vs m.2 = none) :
    ((runVisitor sname vs specs).err = none
     ∧ (runVisitor sname vs specs).methods = []
     ∧ generateResult sname vs specs = .ok ())
    ∧ ((runVisitor sname vs [⟨sname, .iface ms⟩]).err = none
       ∧ (runVisitor sname vs [⟨sname, .iface ms⟩]).methods = ms) := by
  have hskip := foldl_visitSpec_skip sname vs specs ⟨[], none, []⟩ habsent
  have hproc := processInterfaceAux_all_ok vs ms hok
  have hone : runVisitor sname vs [⟨sname, .iface ms⟩] = ⟨ms, none, ms.map Prod.fst⟩ := by
    simp [runVisitor, visitSpec, hproc]
  constructor
  · refine ⟨?_, ?_, ?_⟩
    · show (List.foldl (visitSpec sname vs) ⟨[], none, []⟩ specs).err = none
      rw [hskip]
    · show (List.foldl (visitSpec sname vs) ⟨[], none, []⟩ specs).methods = []
      rw [hskip]
    · show generateResult sname vs specs = .ok ()
      simp [generateResult, runVisitor, hskip]
  · rw [hone]
    exact ⟨rfl, rfl⟩

/-- Witness for C1 as amended: with `Service` requested but only
`Other` declared (plus a non-interface declaration that IS named
`Service`), generation still writes; with a matching `Service`
interface whose method passes validation, its method is extracted. -/
theorem C1_extractor_amended_witness :
    generateResult "Service" [shippedValidator]
      [⟨"Other", .iface [("Do", ⟨[], []⟩)]⟩, ⟨"Service", .nonInterface⟩] = .ok ()
    ∧ (runVisitor "Service" [shippedValidator]
        [⟨"Service", .iface [("Do", ⟨[{ name := "ctx", typ := "context.Context" }], []⟩)]⟩]).methods
      = [("Do", ⟨[{ name := "ctx", typ := "context.Context" }], []⟩)] := by
  have h := C1_extractor_amended "Service" [shippedValidator]
    [⟨"Other", .iface [("Do", ⟨[], []⟩)]⟩, ⟨"Service", .nonInterface⟩]
    [("Do", ⟨[{ name := "ctx", typ := "context.Context" }], []⟩)]
    (by decide) (by decide)
  exact ⟨h.1.2.2, h.2.2⟩

/-- Counterexample to C2: with two methods `A` and `B` that both fail
the shipped validator, generation aborts naming `A`, but the
validator-invocation trace is `["A"]` only — method `B`, which comes
after the failing method, is never validated, contradicting the
claim that remaining methods are still validated. -/
theorem C2_validation_counterexample :
    (runVisitor "S" [shippedValidator]
      [⟨"S", .iface [("A", ⟨[], []⟩), ("B", ⟨[], []⟩)]⟩]).err
      = some "failed to validate method 'A': first param must be context.Context"
    ∧ (runVisitor "S" [shippedValidator]
        [⟨"S", .iface [("A", ⟨[], []⟩), ("B", ⟨[], []⟩)]⟩]).trace = ["A"]
    ∧ "B" ∉ (runVisitor "S" [shippedValidator]
        [⟨"S", .iface [("A", ⟨[], []⟩), ("B", ⟨[], []⟩)]⟩]).trace :=
  ⟨rfl, rfl, by decide⟩

/-- C2 as amended: when a method fails a registered validation
predicate, the whole generation aborts with an error naming the FIRST
offending method in declaration order; the pipeline short-circuits
that method on its first predicate failure AND stops processing the
interface entirely — the validators are invoked exactly on the
passing prefix plus the first failing method, and methods after it
are not validated. -/
theorem C2_validation_amended (sname : String) (vs : List Validator)
    (pre post : List (String × Signature)) (n : String) (s : Signature) (e : String)
    (hpre : ∀ m ∈ pre, firstFailure vs m.2 = none) (hfail : firstFailure vs s = some e) :
    processInterfaceAux vs (pre ++ (n, s) :: post) =
      (pre.map Prod.fst ++ [n], pre, some (validationMsg n e))
    ∧ (runVisitor sname vs [⟨sname, .iface (pre ++ (n, s) :: post)⟩]).err
        = some (validationMsg n e)
    ∧ (runVisitor sname vs [⟨sname, .iface (pre ++ (n, s) :: post)⟩]).trace
        = pre.map Prod.fst ++ [n]
    ∧ generateResult sname vs [⟨sname, .iface (pre ++ (n, s) :: post)⟩]
        = .error ("failed to parse interface: " ++ validationMsg n e) := by
  have hp := processInterfaceAux_first_fail vs pre n s post e hpre hfail
  have hrv : runVisitor sname vs [⟨sname, .iface (pre ++ (n, s) :: post)⟩] =
      ⟨pre, some (validationMsg n e), pre.map Prod.fst ++ [n]⟩ := by
    simp [runVisitor, visitSpec, hp]
  refine ⟨hp, by rw [hrv], by rw [hrv], ?_⟩
  simp [generateResult, hrv]

/-- Witness for C2 as amended: methods `Ok` (valid), `Bad` (invalid),
`C` (never reached): the error names `Bad` and the validation trace
is `["Ok", "Bad"]`. -/
theorem C2_validation_amended_witness :
    (runVisitor "S" [shippedValidator]
      [⟨"S", .iface [("Ok", ⟨[{ name := "ctx", typ := "context.Context" }], []⟩),
                     ("Bad", ⟨[], []⟩), ("C", ⟨[], []⟩)]⟩]).err
      = some "failed to validate method 'Bad': first param must be context.Context"
    ∧ (runVisitor "S" [shippedValidator]
        [⟨"S", .iface [("Ok", ⟨[{ name := "ctx", typ := "context.Context" }], []⟩),
                       ("Bad", ⟨[], []⟩), ("C", ⟨[], []⟩)]⟩]).trace = ["Ok", "Bad"] := by
  have h := C2_validation_amended "S" [shippedValidator]
    [("Ok", ⟨[{ name := "ctx", typ := "context.Context" }], []⟩)] [("C", ⟨[], []⟩)]
    "Bad" ⟨[], []⟩ "first param must be context.Context"
    (by decide) rfl
  exact ⟨h.2.1, h.2.2.1⟩
